import Mathlib

/-
Verification of the file-access server (src/src/index.ts) against its
specification.

The embedding below is a shallow model of the TypeScript source:

* Node's `path.resolve` (POSIX flavour) is modelled by `resolve`, taking the
  process working directory explicitly as a parameter; `path.dirname` is
  `dirname`.
* `validatePath` mirrors src/src/index.ts lines 23-34: it resolves the
  candidate and the configured allowed directory and accepts exactly when the
  resolved candidate starts (as a bare string prefix) with the resolved
  allowed directory.
* The filesystem is a flat map from resolved absolute paths to node kinds,
  plus a map from file paths to their text contents.  `fsReadFile`,
  `fsWriteFile`, `mkdirRecursive` and `readdir` model the `fs/promises`
  calls the source makes (symlink targets are not modelled: a symlink is
  just a directory entry of kind `symlink`, which is all the source ever
  inspects).
* `read_file`, `write_file` and `list_files` mirror the three tool handlers
  of the source, with the try/catch blocks rendered as `Except` matches and
  the MCP text result rendered as `ToolResult` (text plus the `isError`
  flag).

String functions are implemented over `List Char` by structural recursion so
that every concrete instance reduces in the kernel.
-/

deriving instance DecidableEq for Except

/-- `listIsPre pre l` is true iff `pre` is a prefix of `l` (char lists). -/
def listIsPre : List Char → List Char → Bool
  | [], _ => true
  | _ :: _, [] => false
  | a :: as, b :: bs => a = b && listIsPre as bs

/-- `hasSubAux sub l` is true iff `sub` occurs contiguously inside `l`. -/
def hasSubAux (sub : List Char) : List Char → Bool
  | [] => listIsPre sub []
  | c :: t => listIsPre sub (c :: t) || hasSubAux sub t

/-- JavaScript `s.startsWith(pre)`. -/
def strStartsWith (s pre : String) : Bool :=
  listIsPre pre.toList s.toList

/-- JavaScript `s.includes(sub)`: substring occurrence. -/
def strContains (s sub : String) : Bool :=
  hasSubAux sub.toList s.toList

/-- Split a character list at every `/`, keeping empty pieces. -/
def splitSlash : List Char → List Char → List (List Char)
  | [], cur => [cur.reverse]
  | c :: rest, cur =>
    if c = '/' then cur.reverse :: splitSlash rest []
    else splitSlash rest (c :: cur)

/-- The non-empty, non-`.` segments of a path string, in order. -/
def pathSegments (p : String) : List String :=
  ((splitSlash p.toList []).map String.mk).filter
    (fun s => decide (s ≠ "" ∧ s ≠ "."))

/-- Resolve `..` segments against a reversed accumulator, dropping `..` at
the root as POSIX absolute-path normalization does. -/
def normSegs : List String → List String → List String
  | acc, [] => acc.reverse
  | acc, seg :: rest =>
    if seg = ".." then normSegs (acc.drop 1) rest
    else normSegs (seg :: acc) rest

/-- Join segments with `/` (no leading slash). -/
def joinSegs : List String → String
  | [] => ""
  | [s] => s
  | s :: rest => s ++ "/" ++ joinSegs rest

/-- Join segments into an absolute path (`joinAbs [] = "/"`). -/
def joinAbs (segs : List String) : String :=
  "/" ++ joinSegs segs

/-- Node `path.resolve(p)` on POSIX, with the working directory `cwd` made
explicit: an absolute `p` is normalized as is, a relative `p` is resolved
against `cwd`. -/
def resolve (cwd p : String) : String :=
  let s := if strStartsWith p "/" then p else cwd ++ "/" ++ p
  joinAbs (normSegs [] (pathSegments s))

/-- Node `path.dirname` restricted to normalized absolute paths. -/
def dirname (p : String) : String :=
  joinAbs (pathSegments p).dropLast

/-- Last segment of a normalized absolute path. -/
def basename (p : String) : String :=
  ((pathSegments p).getLast?).getD ""

/-- src/src/index.ts lines 23-34.  `allowedDirectory` is the
`ALLOWED_DIRECTORY` environment value and `cwd` the process working
directory, both made explicit parameters.  Acceptance is the source's bare
`resolvedPath.startsWith(allowedPath)`. -/
def validatePath (allowedDirectory cwd filePath : String) : Except String String :=
  let resolvedPath := resolve cwd filePath
  let allowedPath := resolve cwd allowedDirectory
  if strStartsWith resolvedPath allowedPath then Except.ok resolvedPath
  else Except.error ("Access denied: Path " ++ filePath ++ " is outside allowed directory")

/-- Written from the spec's acceptance wording, for comparison with the
source's check: a path is inside the root iff it equals the resolved root or
begins with the resolved root followed immediately by a path separator. -/
def specInside (root p : String) : Bool :=
  decide (p = root) || strStartsWith p (root ++ "/")

example : resolve "/" "/allowed/../outside/x" = "/outside/x" := by decide
example : resolve "/home" "." = "/home" := by decide
example : resolve "/" "allowed-evil/x" = "/allowed-evil/x" := by decide
example : validatePath "/allowed" "/" "/allowed-evil/x" = Except.ok "/allowed-evil/x" := by decide
example : dirname "/a/b/c" = "/a/b" := by decide
example : dirname "/a" = "/" := by decide

/-- The kind a directory entry can have, as reported by `readdir` with
`withFileTypes` (the dirent's own kind: symbolic links are not followed). -/
inductive EntryKind where
  | file
  | directory
  | symlink
  | socket
  | other
deriving DecidableEq, Repr

/-- A Node `fs.Dirent`: a name and the kind the filesystem reports for the
entry itself. -/
structure Dirent where
  name : String
  kind : EntryKind
deriving DecidableEq, Repr

/-- Flat filesystem state: `entries` maps resolved absolute paths to the
kind of the node there, `contents` maps regular-file paths to their text.
The root directory `/` always exists and is kept implicit. -/
structure FS where
  entries : List (String × EntryKind)
  contents : List (String × String)
deriving DecidableEq, Repr

/-- First-match association lookup for entry kinds. -/
def kindLookup : List (String × EntryKind) → String → Option EntryKind
  | [], _ => none
  | e :: rest, k => if e.1 = k then some e.2 else kindLookup rest k

/-- First-match association lookup for file contents. -/
def lookupStr : List (String × String) → String → Option String
  | [], _ => none
  | e :: rest, k => if e.1 = k then some e.2 else lookupStr rest k

/-- Kind of the node at `p`, the root `/` being always a directory. -/
def FS.kindOf (fs : FS) (p : String) : Option EntryKind :=
  if p = "/" then some EntryKind.directory else kindLookup fs.entries p

/-- Text contents of the regular file at `p`, if any. -/
def fileContent (fs : FS) (p : String) : Option String :=
  lookupStr fs.contents p

/-- Node `fs.readFile(p, "utf-8")`: the text of the regular file at `p`, or
the corresponding error. -/
def fsReadFile (fs : FS) (p : String) : Except String String :=
  match fs.kindOf p with
  | some EntryKind.file =>
    match fileContent fs p with
    | some c => Except.ok c
    | none => Except.error ("ENOENT: no such file or directory, open " ++ p)
  | some EntryKind.directory =>
    Except.error ("EISDIR: illegal operation on a directory, read")
  | _ => Except.error ("ENOENT: no such file or directory, open " ++ p)

/-- Node `fs.writeFile(p, c, "utf-8")`: create the file or replace its
entire contents.  Writing over a non-file node fails. -/
def fsWriteFile (fs : FS) (p c : String) : Except String FS :=
  match fs.kindOf p with
  | some EntryKind.file =>
    Except.ok { fs with contents := (p, c) :: fs.contents }
  | none =>
    Except.ok { entries := (p, EntryKind.file) :: fs.entries,
                contents := (p, c) :: fs.contents }
  | some _ =>
    Except.error ("EISDIR: illegal operation on a directory, open " ++ p)

/-- The chain of ancestor directories of the normalized absolute path `d`,
from the outermost below `/` down to `d` itself (`/` excluded). -/
def ancestorsFrom (d : String) : List String :=
  (List.range (pathSegments d).length).map
    (fun i => joinAbs ((pathSegments d).take (i + 1)))

/-- A path where `mkdir -p` may pass through: absent or a directory. -/
def dirOrMissing (fs : FS) (a : String) : Bool :=
  match fs.kindOf a with
  | none => true
  | some EntryKind.directory => true
  | some _ => false

/-- Node `fs.mkdir(d, { recursive: true })`: create every missing directory
on the chain down to `d`, succeeding silently when they already exist, and
failing when a non-directory node is in the way. -/
def mkdirRecursive (fs : FS) (d : String) : Except String FS :=
  if (ancestorsFrom d).all (fun a => dirOrMissing fs a) then
    Except.ok { fs with entries :=
      (((ancestorsFrom d).filter (fun a => (fs.kindOf a).isNone)).map
        (fun a => (a, EntryKind.directory))) ++ fs.entries }
  else Except.error ("ENOTDIR: not a directory, mkdir " ++ d)

/-- Node `fs.readdir(p, { withFileTypes: true })`: the dirents of the
immediate children of directory `p`. -/
def readdir (fs : FS) (p : String) : Except String (List Dirent) :=
  match fs.kindOf p with
  | some EntryKind.directory =>
    Except.ok (((fs.entries.filter
        (fun e => decide (dirname e.1 = p ∧ e.1 ≠ p))).map
      (fun e => { name := basename e.1, kind := e.2 : Dirent })))
  | some _ => Except.error ("ENOTDIR: not a directory, scandir " ++ p)
  | none => Except.error ("ENOENT: no such file or directory, scandir " ++ p)

/-- An MCP tool result: the text content and the `isError` flag (absent in
the source's success objects, i.e. `false`). -/
structure ToolResult where
  text : String
  isError : Bool
deriving DecidableEq, Repr

/-- One element of the `fileList` built in the `list_files` handler. -/
structure FileEntry where
  name : String
  type : String
deriving DecidableEq, Repr

/-- The classification map of src/src/index.ts lines 142-145:
`item.isDirectory() ? "directory" : "file"`. -/
def listEntry (d : Dirent) : FileEntry :=
  { name := d.name,
    type := if d.kind = EntryKind.directory then "directory" else "file" }

/-- The `read_file` tool handler (src/src/index.ts lines 44-77). -/
def read_file (allowedDirectory cwd filePath : String) (fs : FS) : ToolResult :=
  match validatePath allowedDirectory cwd filePath with
  | Except.ok validatedPath =>
    match fsReadFile fs validatedPath with
    | Except.ok content =>
      { text := "File: " ++ filePath ++ "\n\n" ++ content, isError := false }
    | Except.error errorMessage =>
      { text := "Error reading file " ++ filePath ++ ": " ++ errorMessage,
        isError := true }
  | Except.error errorMessage =>
    { text := "Error reading file " ++ filePath ++ ": " ++ errorMessage,
      isError := true }

/-- The `write_file` tool handler (src/src/index.ts lines 79-119).  Returns
the result together with the filesystem after the call; when `fs.writeFile`
fails after `fs.mkdir` succeeded, the directories created persist. -/
def write_file (allowedDirectory cwd filePath content : String) (fs : FS) :
    ToolResult × FS :=
  match validatePath allowedDirectory cwd filePath with
  | Except.ok validatedPath =>
    match mkdirRecursive fs (dirname validatedPath) with
    | Except.ok fs1 =>
      match fsWriteFile fs1 validatedPath content with
      | Except.ok fs2 =>
        ({ text := "Successfully wrote to file: " ++ filePath,
           isError := false }, fs2)
      | Except.error errorMessage =>
        ({ text := "Error writing file " ++ filePath ++ ": " ++ errorMessage,
           isError := true }, fs1)
    | Except.error errorMessage =>
      ({ text := "Error writing file " ++ filePath ++ ": " ++ errorMessage,
         isError := true }, fs)
  | Except.error errorMessage =>
    ({ text := "Error writing file " ++ filePath ++ ": " ++ errorMessage,
       isError := true }, fs)

/-- JavaScript `array.join("\n")`. -/
def joinSegsNL : List String → String
  | [] => ""
  | [s] => s
  | s :: rest => s ++ "\n" ++ joinSegsNL rest

/-- The debug banner the `list_files` handler prepends to every answer
(src/src/index.ts lines 133-137); `dirnameVar` is the module's `__dirname`. -/
def debugBanner (allowedDirectory cwd dirnameVar dirPath : String) : String :=
  "Debug info:\n- ALLOWED_DIRECTORY: " ++ allowedDirectory ++
  "\n- Requested path: " ++ dirPath ++
  "\n- process.cwd(): " ++ cwd ++
  "\n- __dirname: " ++ dirnameVar

/-- The `list_files` tool handler (src/src/index.ts lines 121-181).  The
`path` argument is optional and defaults to `"."`. -/
def list_files (allowedDirectory cwd dirnameVar : String)
    (pathArg : Option String) (fs : FS) : ToolResult :=
  let dirPath := pathArg.getD "."
  match validatePath allowedDirectory cwd dirPath with
  | Except.ok validatedPath =>
    match readdir fs validatedPath with
    | Except.ok items =>
      let fileList := items.map listEntry
      let formattedList := joinSegsNL (fileList.map
        (fun item =>
          (if item.type = "directory" then "📁" else "📄") ++ " " ++ item.name))
      { text := debugBanner allowedDirectory cwd dirnameVar dirPath ++
          "\n\nContents of " ++ dirPath ++ " (resolved to " ++ validatedPath ++
          "):\n\n" ++ formattedList,
        isError := false }
    | Except.error errorMessage =>
      { text := debugBanner allowedDirectory cwd dirnameVar dirPath ++
          "\n\nError listing directory " ++ dirPath ++ ": " ++ errorMessage,
        isError := true }
  | Except.error errorMessage =>
    { text := debugBanner allowedDirectory cwd dirnameVar dirPath ++
        "\n\nError listing directory " ++ dirPath ++ ": " ++ errorMessage,
      isError := true }

/-! Claim theorems. -/

/-- C1: the claim says validation accepts exactly the resolved candidates
that equal the resolved root or extend it past a separator, and that with
root `/allowed` the candidate `/allowed-evil/x` is rejected.  The source's
bare `startsWith` check accepts `/allowed-evil/x` even though it is not
inside `/allowed` in the spec's sense, so the code contradicts the claim
(the claim's positive half, acceptance of `/allowed/x`, does hold). -/
theorem c1_bare_startsWith_accepts_collision :
    validatePath "/allowed" "/" "/allowed-evil/x" = Except.ok "/allowed-evil/x"
    ∧ specInside "/allowed" "/allowed-evil/x" = false
    ∧ validatePath "/allowed" "/" "/allowed/x" = Except.ok "/allowed/x"
    ∧ specInside "/allowed" "/allowed/x" = true := by decide

/-- C2: the claim says every candidate containing `..` whose normalized
resolution lies outside the allowed root is rejected.  The named instance
`/allowed/../outside/x` is indeed rejected, but `/allowed/../allowed-evil/x`
contains `..`, resolves to `/allowed-evil/x` outside the root, and is
accepted by the source's bare `startsWith` check. -/
theorem c2_traversal_normalized_but_boundary_unchecked :
    validatePath "/allowed" "/" "/allowed/../outside/x"
      = Except.error
        "Access denied: Path /allowed/../outside/x is outside allowed directory"
    ∧ validatePath "/allowed" "/" "/allowed/../allowed-evil/x"
      = Except.ok "/allowed-evil/x"
    ∧ specInside "/allowed" "/allowed-evil/x" = false := by decide

/-- C4: the claim says `list` with no path argument enumerates the allowed
root.  The source defaults the argument to `"."`, which resolves to the
process working directory: with root `/allowed` and working directory
`/elsewhere`, the call without argument is rejected outright, while listing
the allowed root itself succeeds. -/
theorem c4_list_default_resolves_to_cwd_not_root :
    (list_files "/allowed" "/elsewhere" "/srv/app" none
      { entries := [("/allowed", EntryKind.directory),
                    ("/allowed/a.txt", EntryKind.file),
                    ("/elsewhere", EntryKind.directory)],
        contents := [("/allowed/a.txt", "hi")] }).isError = true
    ∧ (list_files "/allowed" "/elsewhere" "/srv/app" (some "/allowed")
      { entries := [("/allowed", EntryKind.directory),
                    ("/allowed/a.txt", EntryKind.file),
                    ("/elsewhere", EntryKind.directory)],
        contents := [("/allowed/a.txt", "hi")] }).isError = false := by decide

/-- C5: the claim says every directory created by a validated write lies
inside the allowed root.  Because validation is a bare `startsWith` check,
`write("/allowed-evil/sub/file.txt", c)` with root `/allowed` validates, the
write succeeds, and it creates the directory `/allowed-evil` — absent
beforehand and not inside the allowed root in the spec's sense. -/
theorem c5_write_creates_directory_outside_root :
    (write_file "/allowed" "/" "/allowed-evil/sub/file.txt" "c"
      { entries := [("/allowed", EntryKind.directory)],
        contents := [] }).1.isError = false
    ∧ ((write_file "/allowed" "/" "/allowed-evil/sub/file.txt" "c"
      { entries := [("/allowed", EntryKind.directory)],
        contents := [] }).2).kindOf "/allowed-evil" = some EntryKind.directory
    ∧ (FS.kindOf
        { entries := [("/allowed", EntryKind.directory)], contents := [] }
        "/allowed-evil") = none
    ∧ specInside "/allowed" "/allowed-evil" = false := by decide

/-- C9: the claim says relative candidates are resolved against the working
directory (true: the same candidate `sub/f` is accepted from `/allowed` and
rejected from `/other`) and that a relative candidate is accepted only when
its resolution is inside the allowed root.  The latter fails: from working
directory `/`, the relative candidate `allowed-evil/x` resolves to
`/allowed-evil/x`, outside the root, yet is accepted. -/
theorem c9_relative_resolution_depends_on_cwd :
    validatePath "/allowed" "/allowed" "sub/f" = Except.ok "/allowed/sub/f"
    ∧ validatePath "/allowed" "/other" "sub/f"
      = Except.error "Access denied: Path sub/f is outside allowed directory"
    ∧ validatePath "/allowed" "/" "allowed-evil/x"
      = Except.ok "/allowed-evil/x"
    ∧ specInside "/allowed" "/allowed-evil/x" = false := by decide

/-! Helper lemmas. -/

theorem listIsPre_append_self (l m : List Char) : listIsPre l (l ++ m) = true := by
  induction l with
  | nil => rfl
  | cons a t ih => simp [listIsPre, ih]

theorem hasSubAux_of_isPre {sub l : List Char} (h : listIsPre sub l = true) :
    hasSubAux sub l = true := by
  cases l with
  | nil => exact h
  | cons c t => simp [hasSubAux, h]

theorem hasSubAux_append (l₁ sub l₂ : List Char) :
    hasSubAux sub (l₁ ++ (sub ++ l₂)) = true := by
  induction l₁ with
  | nil => exact hasSubAux_of_isPre (listIsPre_append_self sub l₂)
  | cons c t ih => simp [hasSubAux, ih]

theorem toList_append (a b : String) : (a ++ b).toList = a.toList ++ b.toList := rfl

theorem strContains_mid (a p b : String) : strContains (a ++ p ++ b) p = true := by
  have h : (a ++ p ++ b).toList = a.toList ++ (p.toList ++ b.toList) := by
    rw [toList_append, toList_append, List.append_assoc]
  rw [strContains, h]
  exact hasSubAux_append a.toList p.toList b.toList

theorem fsWriteFile_ok_kind {fs fs' : FS} {p c : String}
    (h : fsWriteFile fs p c = Except.ok fs') :
    fs'.kindOf p = some EntryKind.file := by
  unfold fsWriteFile at h
  cases hk : fs.kindOf p with
  | none =>
    rw [hk] at h
    cases h
    have hp : ¬ p = "/" := by
      intro hp
      simp only [FS.kindOf, if_pos hp] at hk
      exact Option.noConfusion hk
    simp [FS.kindOf, hp, kindLookup]
  | some k =>
    rw [hk] at h
    cases k with
    | file =>
      cases h
      exact hk
    | directory => exact Except.noConfusion h
    | symlink => exact Except.noConfusion h
    | socket => exact Except.noConfusion h
    | other => exact Except.noConfusion h

theorem fsWriteFile_ok_content {fs fs' : FS} {p c : String}
    (h : fsWriteFile fs p c = Except.ok fs') :
    fileContent fs' p = some c := by
  unfold fsWriteFile at h
  cases hk : fs.kindOf p with
  | none =>
    rw [hk] at h
    cases h
    simp [fileContent, lookupStr]
  | some k =>
    rw [hk] at h
    cases k with
    | file =>
      cases h
      simp [fileContent, lookupStr]
    | directory => exact Except.noConfusion h
    | symlink => exact Except.noConfusion h
    | socket => exact Except.noConfusion h
    | other => exact Except.noConfusion h

theorem kindLookup_append_of_none {l₁ : List (String × EntryKind)} {x : String}
    (l₂ : List (String × EntryKind)) (h : kindLookup l₁ x = none) :
    kindLookup (l₁ ++ l₂) x = kindLookup l₂ x := by
  induction l₁ with
  | nil => rfl
  | cons e t ih =>
    rw [List.cons_append]
    simp only [kindLookup] at h ⊢
    by_cases he : e.1 = x
    · rw [if_pos he] at h
      exact Option.noConfusion h
    · rw [if_neg he] at h ⊢
      exact ih h

theorem kindLookup_created_none (fs : FS) (x : String) (k : EntryKind)
    (L : List String) (hx : fs.kindOf x = some k) :
    kindLookup ((L.filter (fun a => (fs.kindOf a).isNone)).map
      (fun a => (a, EntryKind.directory))) x = none := by
  induction L with
  | nil => rfl
  | cons a t ih =>
    by_cases ha : (fs.kindOf a).isNone = true
    · rw [List.filter_cons, if_pos ha, List.map_cons]
      simp only [kindLookup]
      by_cases hax : a = x
      · subst hax
        rw [hx] at ha
        exact Bool.noConfusion ha
      · rw [if_neg hax]
        exact ih
    · rw [List.filter_cons, if_neg ha]
      exact ih

theorem mkdirRecursive_ok_contents {fs fs' : FS} {d : String}
    (h : mkdirRecursive fs d = Except.ok fs') : fs'.contents = fs.contents := by
  unfold mkdirRecursive at h
  split at h
  · cases h; rfl
  · exact Except.noConfusion h

theorem kindOf_entries (fs : FS) (x : String) (h : ¬ x = "/") :
    fs.kindOf x = kindLookup fs.entries x := by
  simp [FS.kindOf, h]

theorem mkdirRecursive_preserves_kind {fs fs' : FS} {d x : String} {k : EntryKind}
    (h : mkdirRecursive fs d = Except.ok fs') (hx : fs.kindOf x = some k) :
    fs'.kindOf x = some k := by
  unfold mkdirRecursive at h
  split at h
  · cases h
    by_cases hroot : x = "/"
    · simp only [FS.kindOf, if_pos hroot] at hx ⊢
      exact hx
    · have hnew := kindLookup_created_none fs x k (ancestorsFrom d) hx
      rw [kindOf_entries _ x hroot]
      rw [kindOf_entries fs x hroot] at hx
      rw [kindLookup_append_of_none fs.entries hnew]
      exact hx
  · exact Except.noConfusion h

/-- C3-counterexample: the claim says a rejected operation's failure message
never contains the resolved allowed root.  With root `/allowed` (which
resolves to itself, third conjunct) and the rejected candidate
`/etc/passwd`, the `list_files` failure message does contain `/allowed`: the
handler prepends a debug banner with the `ALLOWED_DIRECTORY` value to every
answer, error answers included. -/
theorem c3_list_failure_message_contains_root :
    (list_files "/allowed" "/home" "/srv/app" (some "/etc/passwd")
      { entries := [], contents := [] }).isError = true
    ∧ strContains (list_files "/allowed" "/home" "/srv/app" (some "/etc/passwd")
        { entries := [], contents := [] }).text "/allowed" = true
    ∧ resolve "/home" "/allowed" = "/allowed"
    ∧ strContains (list_files "/allowed" "/home" "/srv/app" (some "/etc/passwd")
        { entries := [], contents := [] }).text "/etc/passwd" = true := by decide

/-- C3-amended: for every candidate that validation rejects, each of the
three operations touches no filesystem state (the write returns the
filesystem unchanged, and read and list answer exactly as they would on the
empty filesystem) and returns a Failure result (flag set) whose message
contains the original unresolved candidate string.  (The original claim's
further condition that the message never contain the resolved allowed root
is dropped: the `list_files` debug banner prints the configured allowed
directory in every answer.) -/
theorem c3_rejected_ops_fail_closed (allowedDirectory cwd dirnameVar p c msg : String)
    (fs : FS)
    (h : validatePath allowedDirectory cwd p = Except.error msg) :
    (read_file allowedDirectory cwd p fs).isError = true
    ∧ strContains (read_file allowedDirectory cwd p fs).text p = true
    ∧ read_file allowedDirectory cwd p fs
        = read_file allowedDirectory cwd p { entries := [], contents := [] }
    ∧ (write_file allowedDirectory cwd p c fs).1.isError = true
    ∧ strContains (write_file allowedDirectory cwd p c fs).1.text p = true
    ∧ (write_file allowedDirectory cwd p c fs).2 = fs
    ∧ (list_files allowedDirectory cwd dirnameVar (some p) fs).isError = true
    ∧ strContains (list_files allowedDirectory cwd dirnameVar (some p) fs).text p = true
    ∧ list_files allowedDirectory cwd dirnameVar (some p) fs
        = list_files allowedDirectory cwd dirnameVar (some p)
            { entries := [], contents := [] } := by
  simp only [read_file, write_file, list_files, Option.getD_some, h]
  refine ⟨trivial, ?_, trivial, trivial, ?_, trivial, trivial, ?_, trivial⟩
  · rw [strContains]
    have := hasSubAux_append ("Error reading file ".toList) p.toList
      ((": ").toList ++ msg.toList)
    simpa [toList_append, List.append_assoc] using this
  · rw [strContains]
    have := hasSubAux_append ("Error writing file ".toList) p.toList
      ((": ").toList ++ msg.toList)
    simpa [toList_append, List.append_assoc] using this
  · rw [strContains]
    have := hasSubAux_append
      ((debugBanner allowedDirectory cwd dirnameVar p).toList ++
        ("\n\nError listing directory ").toList) p.toList
      ((": ").toList ++ msg.toList)
    simpa [toList_append, List.append_assoc] using this

/-- C3-witness: the amended theorem applied at root `/allowed`, working
directory `/home`, rejected candidate `/etc/x`. -/
theorem c3_rejected_ops_fail_closed_witness :
    (read_file "/allowed" "/home" "/etc/x"
        { entries := [("/etc/x", EntryKind.file)],
          contents := [("/etc/x", "secret")] }).isError = true
    ∧ strContains (read_file "/allowed" "/home" "/etc/x"
        { entries := [("/etc/x", EntryKind.file)],
          contents := [("/etc/x", "secret")] }).text "/etc/x" = true
    ∧ read_file "/allowed" "/home" "/etc/x"
        { entries := [("/etc/x", EntryKind.file)],
          contents := [("/etc/x", "secret")] }
        = read_file "/allowed" "/home" "/etc/x" { entries := [], contents := [] }
    ∧ (write_file "/allowed" "/home" "/etc/x" "c"
        { entries := [("/etc/x", EntryKind.file)],
          contents := [("/etc/x", "secret")] }).1.isError = true
    ∧ strContains (write_file "/allowed" "/home" "/etc/x" "c"
        { entries := [("/etc/x", EntryKind.file)],
          contents := [("/etc/x", "secret")] }).1.text "/etc/x" = true
    ∧ (write_file "/allowed" "/home" "/etc/x" "c"
        { entries := [("/etc/x", EntryKind.file)],
          contents := [("/etc/x", "secret")] }).2
        = { entries := [("/etc/x", EntryKind.file)],
            contents := [("/etc/x", "secret")] }
    ∧ (list_files "/allowed" "/home" "/srv/app" (some "/etc/x")
        { entries := [("/etc/x", EntryKind.file)],
          contents := [("/etc/x", "secret")] }).isError = true
    ∧ strContains (list_files "/allowed" "/home" "/srv/app" (some "/etc/x")
        { entries := [("/etc/x", EntryKind.file)],
          contents := [("/etc/x", "secret")] }).text "/etc/x" = true
    ∧ list_files "/allowed" "/home" "/srv/app" (some "/etc/x")
        { entries := [("/etc/x", EntryKind.file)],
          contents := [("/etc/x", "secret")] }
        = list_files "/allowed" "/home" "/srv/app" (some "/etc/x")
            { entries := [], contents := [] } :=
  c3_rejected_ops_fail_closed "/allowed" "/home" "/srv/app" "/etc/x" "c"
    "Access denied: Path /etc/x is outside allowed directory"
    { entries := [("/etc/x", EntryKind.file)],
      contents := [("/etc/x", "secret")] } (by decide)

/-- C8: every handler wraps its outcome in a result carrying the `isError`
flag; reading a path that validates but does not exist yields a Failure
result (flag set) whose message contains the original requested path. -/
theorem c8_read_missing_returns_failure (allowedDirectory cwd p vp : String)
    (fs : FS)
    (h : validatePath allowedDirectory cwd p = Except.ok vp)
    (hmiss : fs.kindOf vp = none) :
    (read_file allowedDirectory cwd p fs).isError = true
    ∧ strContains (read_file allowedDirectory cwd p fs).text p = true := by
  have hr : fsReadFile fs vp
      = Except.error ("ENOENT: no such file or directory, open " ++ vp) := by
    unfold fsReadFile
    rw [hmiss]
  simp only [read_file, h, hr]
  refine ⟨trivial, ?_⟩
  rw [strContains]
  have := hasSubAux_append ("Error reading file ".toList) p.toList
    ((": ").toList ++ ("ENOENT: no such file or directory, open ").toList ++ vp.toList)
  simpa [toList_append, List.append_assoc] using this

/-- C8-witness: reading the absent `/allowed/nope.txt` under root `/allowed`. -/
theorem c8_read_missing_returns_failure_witness :
    (read_file "/allowed" "/" "/allowed/nope.txt"
        { entries := [("/allowed", EntryKind.directory)],
          contents := [] }).isError = true
    ∧ strContains (read_file "/allowed" "/" "/allowed/nope.txt"
        { entries := [("/allowed", EntryKind.directory)],
          contents := [] }).text "/allowed/nope.txt" = true :=
  c8_read_missing_returns_failure "/allowed" "/" "/allowed/nope.txt"
    "/allowed/nope.txt"
    { entries := [("/allowed", EntryKind.directory)], contents := [] }
    (by decide) (by decide)

/-- C6: a successful write replaces the entire contents of the validated
target with `c` — whatever was there before — and writing the same content
to the same path twice leaves the file holding `c` exactly once (the second
write is a full overwrite, not an append). -/
theorem c6_write_full_overwrite (allowedDirectory cwd p c vp : String) (fs : FS)
    (h : validatePath allowedDirectory cwd p = Except.ok vp)
    (h1 : (write_file allowedDirectory cwd p c fs).1.isError = false) :
    fileContent (write_file allowedDirectory cwd p c fs).2 vp = some c
    ∧ fileContent (write_file allowedDirectory cwd p c
        (write_file allowedDirectory cwd p c fs).2).2 vp = some c := by
  unfold write_file at h1 ⊢
  simp only [h] at h1 ⊢
  cases hm : mkdirRecursive fs (dirname vp) with
  | error e => simp [hm] at h1
  | ok fs1 =>
    simp only [hm] at h1 ⊢
    cases hw : fsWriteFile fs1 vp c with
    | error e => simp [hw] at h1
    | ok fs2 =>
      simp only [hw]
      have hc2 : fileContent fs2 vp = some c := fsWriteFile_ok_content hw
      have hk2 : fs2.kindOf vp = some EntryKind.file := fsWriteFile_ok_kind hw
      refine ⟨hc2, ?_⟩
      cases hm2 : mkdirRecursive fs2 (dirname vp) with
      | error e2 =>
        simp only [hm2]
        exact hc2
      | ok fs3 =>
        have hk3 : fs3.kindOf vp = some EntryKind.file :=
          mkdirRecursive_preserves_kind hm2 hk2
        have hw2 : fsWriteFile fs3 vp c
            = Except.ok { fs3 with contents := (vp, c) :: fs3.contents } := by
          simp only [fsWriteFile, hk3]
        simp only [hm2, hw2]
        simp [fileContent, lookupStr]

/-- C6-witness: the overwrite theorem applied with root `/allowed`, target
`/allowed/f.txt` and content `hi`, starting from a file already holding
`hihi`. -/
theorem c6_write_full_overwrite_witness :
    fileContent (write_file "/allowed" "/" "/allowed/f.txt" "hi"
      { entries := [("/allowed", EntryKind.directory),
                    ("/allowed/f.txt", EntryKind.file)],
        contents := [("/allowed/f.txt", "hihi")] }).2 "/allowed/f.txt" = some "hi"
    ∧ fileContent (write_file "/allowed" "/" "/allowed/f.txt" "hi"
        (write_file "/allowed" "/" "/allowed/f.txt" "hi"
          { entries := [("/allowed", EntryKind.directory),
                        ("/allowed/f.txt", EntryKind.file)],
            contents := [("/allowed/f.txt", "hihi")] }).2).2 "/allowed/f.txt"
        = some "hi" :=
  c6_write_full_overwrite "/allowed" "/" "/allowed/f.txt" "hi" "/allowed/f.txt"
    { entries := [("/allowed", EntryKind.directory),
                  ("/allowed/f.txt", EntryKind.file)],
      contents := [("/allowed/f.txt", "hihi")] } (by decide) (by decide)

/-- C7: write-then-read round trip.  After a successful `write(p, c)`, the
underlying read of the validated path yields exactly `c`, and the `read(p)`
tool answer is the success result embedding `c` unchanged. -/
theorem c7_write_read_round_trip (allowedDirectory cwd p c vp : String) (fs : FS)
    (h : validatePath allowedDirectory cwd p = Except.ok vp)
    (h1 : (write_file allowedDirectory cwd p c fs).1.isError = false) :
    fsReadFile (write_file allowedDirectory cwd p c fs).2 vp = Except.ok c
    ∧ (read_file allowedDirectory cwd p
        (write_file allowedDirectory cwd p c fs).2).text
        = "File: " ++ p ++ "\n\n" ++ c
    ∧ (read_file allowedDirectory cwd p
        (write_file allowedDirectory cwd p c fs).2).isError = false := by
  unfold write_file at h1 ⊢
  simp only [h] at h1 ⊢
  cases hm : mkdirRecursive fs (dirname vp) with
  | error e => simp [hm] at h1
  | ok fs1 =>
    simp only [hm] at h1 ⊢
    cases hw : fsWriteFile fs1 vp c with
    | error e => simp [hw] at h1
    | ok fs2 =>
      simp only [hw]
      have hc2 : fileContent fs2 vp = some c := fsWriteFile_ok_content hw
      have hk2 : fs2.kindOf vp = some EntryKind.file := fsWriteFile_ok_kind hw
      have hread : fsReadFile fs2 vp = Except.ok c := by
        simp only [fsReadFile, hk2, hc2]
      refine ⟨hread, ?_, ?_⟩
      · simp only [read_file, h, hread]
      · simp only [read_file, h, hread]

/-- C7-witness: the round-trip theorem applied with root `/allowed`, path
`/allowed/f.txt`, content `hello world`. -/
theorem c7_write_read_round_trip_witness :
    fsReadFile (write_file "/allowed" "/" "/allowed/f.txt" "hello world"
      { entries := [("/allowed", EntryKind.directory)],
        contents := [] }).2 "/allowed/f.txt" = Except.ok "hello world"
    ∧ (read_file "/allowed" "/" "/allowed/f.txt"
        (write_file "/allowed" "/" "/allowed/f.txt" "hello world"
          { entries := [("/allowed", EntryKind.directory)],
            contents := [] }).2).text
        = "File: " ++ "/allowed/f.txt" ++ "\n\n" ++ "hello world"
    ∧ (read_file "/allowed" "/" "/allowed/f.txt"
        (write_file "/allowed" "/" "/allowed/f.txt" "hello world"
          { entries := [("/allowed", EntryKind.directory)],
            contents := [] }).2).isError = false :=
  c7_write_read_round_trip "/allowed" "/" "/allowed/f.txt" "hello world"
    "/allowed/f.txt"
    { entries := [("/allowed", EntryKind.directory)], contents := [] }
    (by decide) (by decide)

/-- C10: the `list_files` classification labels an entry `directory` exactly
when the dirent the filesystem reports is itself a directory (symbolic links
are not followed: a symlink dirent has kind `symlink`), and every other
entry kind — file, symlink, socket or otherwise — is labeled `file`. -/
theorem c10_entry_classification (d : Dirent) :
    ((listEntry d).type = "directory" ↔ d.kind = EntryKind.directory)
    ∧ ((listEntry d).type = "directory" ∨ (listEntry d).type = "file") := by
  cases d with
  | mk n k => cases k <;> simp [listEntry]

/-- C10-witness: the classification theorem applied to a symlink dirent. -/
theorem c10_entry_classification_witness :
    ((listEntry { name := "s", kind := EntryKind.symlink }).type = "directory"
      ↔ ({ name := "s", kind := EntryKind.symlink } : Dirent).kind
          = EntryKind.directory)
    ∧ ((listEntry { name := "s", kind := EntryKind.symlink }).type = "directory"
      ∨ (listEntry { name := "s", kind := EntryKind.symlink }).type = "file") :=
  c10_entry_classification { name := "s", kind := EntryKind.symlink }
